import Mathlib

/-
Verification of the Coworker chat client's state-synchronization core
(`frontend/assets/js/main.js`, class `CoworkerApp`) against its
natural-language specification.

The JavaScript is shallowly embedded: the mutable `CoworkerApp` instance
becomes an explicit `AppState` record threaded through pure functions, the
`chats` JS `Map` becomes an insertion-ordered list of `Chat` records with
unique ids, `new Date()` values become `Nat` millisecond timestamps passed in
as parameters, and each network call's outcome becomes an explicit
parameter (an `ExchangeOutcome`, `HistoryResult`, or `Bool`).  `async`
functions that suspend at an `await` are split into a synchronous prefix and
a resumption so that event-loop interleavings can be expressed.
-/

namespace Coworker

/-- A chat message as built by `addMessageLocally` / `loadChatHistory`:
`type` is `"user"` or `"ai"`, `timestamp` is milliseconds. -/
structure Message where
  type : String
  content : String
  timestamp : Nat
deriving Repr, DecidableEq

/-- One conversation record, as stored in `this.chats`. -/
structure Chat where
  id : String
  title : String
  messages : List Message
  createdAt : Nat
  updatedAt : Nat
  lastMessage : Option String
deriving Repr, DecidableEq

/-- The mutable fields of the `CoworkerApp` instance that the
synchronization logic reads and writes.  `chats` models the JS `Map`
(insertion-ordered, unique keys). -/
structure AppState where
  currentChatId : Option String
  chats : List Chat
  chatCounter : Nat
  isLoading : Bool
  userMemory : List (String × String)
deriving Repr, DecidableEq

/-- Model of `this.chats.get(id)` on the insertion-ordered map. -/
def mapGet (chats : List Chat) (id : String) : Option Chat :=
  chats.find? (fun c => c.id == id)

/-- Model of `this.chats.set(chat.id, chat)`: replace in place when the key exists
(JS `Map.set` keeps the original position), otherwise append. -/
def mapSet (chats : List Chat) (chat : Chat) : List Chat :=
  if chats.any (fun c => c.id == chat.id) then
    chats.map (fun c => if c.id == chat.id then chat else c)
  else
    chats ++ [chat]

/-- Model of `this.chats.delete(id)`. -/
def mapDelete (chats : List Chat) (id : String) : List Chat :=
  chats.filter (fun c => c.id != id)

/-- Model of `this.chats.get(this.currentChatId)` (a `null` id never matches). -/
def currentChat (s : AppState) : Option Chat :=
  match s.currentChatId with
  | none => none
  | some cid => mapGet s.chats cid

/-- The label produced by `formatTime`: either one of the relative strings
or the `date.toLocaleDateString()` branch (locale-dependent, abstracted). -/
inductive TimeLabel where
  | relative (label : String)
  | absoluteDate
deriving Repr, DecidableEq

/-- Model of `formatTime(date)` with `diffMs = now - date` already computed
(the claim restricts attention to non-negative elapsed time). -/
def formatTime (diffMs : Nat) : TimeLabel :=
  let diffMins := diffMs / 60000
  let diffHours := diffMs / 3600000
  let diffDays := diffMs / 86400000
  if diffMins < 1 then .relative "Now"
  else if diffMins < 60 then .relative (toString diffMins ++ "m ago")
  else if diffHours < 24 then .relative (toString diffHours ++ "h ago")
  else if diffDays < 7 then .relative (toString diffDays ++ "d ago")
  else .absoluteDate

/-- JS `String.prototype.trim()`: strip leading and trailing whitespace
(modelled character-wise so it evaluates by kernel reduction). -/
def jsTrim (s : String) : String :=
  ⟨((s.data.dropWhile Char.isWhitespace).reverse.dropWhile Char.isWhitespace).reverse⟩

/-- JS `a || d` for an optional string field (`""` is falsy). -/
def jsOrStr (a : Option String) (d : String) : String :=
  match a with
  | some x => if x = "" then d else x
  | none => d

/-- JS `a || d` for an optional numeric field (`0` is falsy). -/
def jsOrNat (a : Option Nat) (d : Nat) : Nat :=
  match a with
  | some x => if x = 0 then d else x
  | none => d

/-- The conversation record after one `addMessageLocally` mutation:
`messages.push({type, content, timestamp})` then `updatedAt = new Date()`. -/
def appendedChat (chat : Chat) (ty content : String) (now : Nat) : Chat :=
  { chat with messages := chat.messages ++ [⟨ty, content, now⟩], updatedAt := now }

/-- Model of `addMessageLocally(type, content)`: append to the current conversation
(a no-op when `currentChatId` matches nothing) and bump `updatedAt`; `now`
stands for the `new Date()` calls made during the mutation. -/
def addMessageLocally (s : AppState) (ty content : String) (now : Nat) : AppState :=
  match currentChat s with
  | none => s
  | some chat =>
    { s with chats := mapSet s.chats (appendedChat chat ty content now) }

/-- One entry of the `history` array in a `/chat-history/{id}` response. -/
structure HistEntry where
  role : String
  content : Option String
  timestamp : Option Nat
  created_at : Option Nat
deriving Repr, DecidableEq

/-- The outcome of a `GET /chat-history/{id}` call, in the cases
`loadChatHistory` distinguishes: transport/HTTP failure (`!response.ok` or
a thrown fetch), a payload without a `history` array, or a `history`
array (possibly empty — an empty array is truthy in JS). -/
inductive HistoryResult where
  | fetchFail
  | noHistory
  | history (entries : List HistEntry)
deriving Repr, DecidableEq

/-- The per-element mapping `loadChatHistory` applies to `data.history`. -/
def histToMsg (now : Nat) (e : HistEntry) : Message :=
  { type := if e.role == "user" then "user" else "ai",
    content := jsOrStr e.content "",
    timestamp := jsOrNat e.timestamp (jsOrNat e.created_at now) }

/-- The state mutation `loadChatHistory(chatId)` performs when its fetch
settles.  The code re-reads `this.chats.get(chatId)` after the `await`, so
a conversation deleted during the suspension is left untouched. -/
def applyHistory (s : AppState) (chatId : String) (res : HistoryResult) (now : Nat) :
    AppState :=
  match res with
  | .fetchFail => s
  | .noHistory => s
  | .history entries =>
    match mapGet s.chats chatId with
    | none => s
    | some chat =>
      let chat2 := { chat with messages := entries.map (histToMsg now) }
      { s with chats := mapSet s.chats chat2 }

/-- Where `switchToChat(chatId)` stands after its synchronous prefix: it
either completed (guard hit, or no fetch was needed, so the body ran with
no `await` of a pending promise), or it suspended at the history fetch. -/
inductive SwitchStep where
  | done (s : AppState)
  | awaiting (chatId : String)
deriving Repr, DecidableEq

/-- The synchronous prefix of `switchToChat(chatId)`: return unchanged when
the target is already current; otherwise fetch history first when the
target exists with an empty message list (suspending at the fetch), else
set `currentChatId` immediately.  The `Bool` records whether a
`GET /chat-history/{chatId}` request was issued. -/
def switchStart (s : AppState) (chatId : String) : SwitchStep × Bool :=
  if s.currentChatId = some chatId then (.done s, false)
  else
    match mapGet s.chats chatId with
    | some chat =>
      if chat.messages.isEmpty then (.awaiting chatId, true)
      else (.done { s with currentChatId := some chatId }, false)
    | none => (.done { s with currentChatId := some chatId }, false)

/-- The continuation of a suspended `switchToChat` once its history fetch
settles: apply the fetch result, then set `currentChatId`. -/
def switchResume (s : AppState) (chatId : String) (res : HistoryResult) (now : Nat) :
    AppState :=
  let s1 := applyHistory s chatId res now
  { s1 with currentChatId := some chatId }

/-- One whole `switchToChat(chatId)` call run without interleaving,
returning the new state and the number of history fetches issued. -/
def switchToChatRun (s : AppState) (chatId : String) (res : HistoryResult) (now : Nat) :
    AppState × Nat :=
  match switchStart s chatId with
  | (.done s1, _) => (s1, 0)
  | (.awaiting _, _) => (switchResume s chatId res now, 1)

/-- The event-loop interleaving of two `switchToChat(chatId)` calls to the
same id in which the second call starts before the first call's history
fetch (if any) settles, and the fetch results are applied in call order.
Returns the final state and the total number of history fetches issued. -/
def concurrentSwitchRun (s : AppState) (chatId : String)
    (resA resB : HistoryResult) (tA tB : Nat) : AppState × Nat :=
  match switchStart s chatId with
  | (.done s1, _) =>
    match switchStart s1 chatId with
    | (.done s2, _) => (s2, 0)
    | (.awaiting _, _) => (switchResume s1 chatId resB tB, 1)
  | (.awaiting _, _) =>
    match switchStart s chatId with
    | (.done s1, _) => (switchResume s1 chatId resA tA, 1)
    | (.awaiting _, _) =>
      let s1 := switchResume s chatId resA tA
      (switchResume s1 chatId resB tB, 2)

/-- Model of `createNewChat()`: the fresh id is `chat_{Date.now()}_{counter++}` (the
counter increments before the request settles); the conversation is added
and made current only when the `POST /chat` call reports success, while a
failure or thrown fetch only surfaces an error. -/
def createNewChat (s : AppState) (now : Nat) (success : Bool) : AppState :=
  let chatId := "chat_" ++ toString now ++ "_" ++ toString s.chatCounter
  let s1 := { s with chatCounter := s.chatCounter + 1 }
  if success then
    let chatData : Chat :=
      { id := chatId, title := "New Conversation", messages := [],
        createdAt := now, updatedAt := now, lastMessage := none }
    { s1 with chats := mapSet s1.chats chatData, currentChatId := some chatId }
  else s1

/-- How a `POST /ask` round-trip ends, in the cases `sendMessage`
distinguishes: `response.ok && data.response` truthy; reachable but failed
(with an optional `data.error`); or a thrown fetch / JSON parse error. -/
inductive ExchangeOutcome where
  | success (response : String)
  | appError (error : Option String)
  | networkFailure
deriving Repr, DecidableEq

/-- The assistant-message content `sendMessage` appends per outcome. -/
def replyContent : ExchangeOutcome → String
  | .success r => r
  | .appError e => jsOrStr e "Sorry, I encountered an error. Please try again."
  | .networkFailure =>
      "Sorry, I couldn\x27t connect to the server. Please check your connection and try again."

/-- Model of `loadUserMemory()`: `none` stands for a failed fetch or a non-ok response
(memory keeps its prior value). -/
def loadUserMemoryApply (s : AppState) (res : Option (List (String × String))) : AppState :=
  match res with
  | some m => { s with userMemory := m }
  | none => s

/-- Model of `updateChatTitleFromFirstMessage(firstMessage)` — the local mutation.
The outcome of the `POST /chat` propagation is a parameter the result does
not depend on: its failure is only logged, never rolled back. -/
def updateChatTitleFromFirstMessage (s : AppState) (firstMessage : String)
    (_propagationOk : Bool) : AppState :=
  match currentChat s with
  | none => s
  | some chat =>
    if chat.messages.length > 2 then s
    else
      let title :=
        if firstMessage.length > 40 then firstMessage.take 40 ++ "..." else firstMessage
      let chat2 := { chat with title := title }
      { s with chats := mapSet s.chats chat2 }

/-- The continuation of `sendMessage` after its `POST /ask` settles: append
the assistant reply (or the synthetic error message) to whichever
conversation is current at that moment, on success also derive the title
and refresh user memory, and release the in-flight flag in every case. -/
def sendMessageComplete (s : AppState) (message : String) (out : ExchangeOutcome)
    (tReply : Nat) (memOut : Option (List (String × String))) : AppState :=
  match out with
  | .success resp =>
    let s1 := addMessageLocally s "ai" resp tReply
    let s2 := updateChatTitleFromFirstMessage s1 message true
    let s3 := loadUserMemoryApply s2 memOut
    { s3 with isLoading := false }
  | .appError err =>
    let s1 := addMessageLocally s "ai" (replyContent (.appError err)) tReply
    { s1 with isLoading := false }
  | .networkFailure =>
    let s1 := addMessageLocally s "ai" (replyContent .networkFailure) tReply
    { s1 with isLoading := false }

/-- One whole `sendMessage()` call on input `input`, run without
interleaving: the blank/in-flight guard, the optimistic user append, the
exchange and its completion.  The `Bool` records whether a `POST /ask`
request was issued. -/
def sendMessage (s : AppState) (input : String) (tSend tReply : Nat)
    (out : ExchangeOutcome) (memOut : Option (List (String × String))) :
    AppState × Bool :=
  let message := jsTrim input
  if message = "" ∨ s.isLoading then (s, false)
  else
    let s1 := { s with isLoading := true }
    let s2 := addMessageLocally s1 "user" message tSend
    (sendMessageComplete s2 message out tReply memOut, true)

/-- Model of `deleteChat(chatId)` after the user confirms: on a successful `DELETE`
remove the conversation locally; when it was current, select
`remainingChats[0]` — the first remaining conversation in the map's
insertion order — then call `switchToChat` on it, or create a new chat
when none remain.  Returns the new state and the number of history
fetches issued. -/
def deleteChat (s : AppState) (chatId : String) (success : Bool)
    (histRes : HistoryResult) (now : Nat) (createOk : Bool) : AppState × Nat :=
  if success then
    let s1 := { s with chats := mapDelete s.chats chatId }
    if s.currentChatId = some chatId then
      match s1.chats with
      | [] => (createNewChat s1 now createOk, 0)
      | first :: _ =>
        let s2 := { s1 with currentChatId := some first.id }
        switchToChatRun s2 first.id histRes now
    else (s1, 0)
  else (s, 0)

/-- Model of `clearAllChats()` after the user confirms: a `DELETE` is issued for
every id in the store, awaited with the fail-fast `Promise.all`
(`deleteResolves` says whether each fetch resolves; HTTP status is never
inspected).  Only when every delete resolves are the local chats cleared,
the counter reset and one `createNewChat()` attempted; any rejection lands
in the `catch`, which surfaces an error and leaves local state untouched.
Also returns the list of ids deletes were issued for. -/
def clearAllChats (s : AppState) (deleteResolves : String → Bool)
    (now : Nat) (createOk : Bool) : AppState × List String :=
  let issued := s.chats.map (fun c => c.id)
  if issued.all deleteResolves then
    let s1 := { s with chats := [], chatCounter := 1 }
    (createNewChat s1 now createOk, issued)
  else (s, issued)

/-- The arguments of one `addMessageLocally` call: message type, content
and the timestamp taken during the call. -/
structure SendCall where
  ty : String
  content : String
  time : Nat
deriving Repr, DecidableEq

/-- The message an `addMessageLocally` call constructs. -/
def mkMsg (c : SendCall) : Message := ⟨c.ty, c.content, c.time⟩

/-- A sequence of `addMessageLocally` calls, run in order. -/
def appendRun (s : AppState) (calls : List SendCall) : AppState :=
  calls.foldl (fun st c => addMessageLocally st c.ty c.content c.time) s

/-- The cumulative effect of a sequence of `addMessageLocally` calls on the
current conversation's record: each call appends its message and overwrites
`updatedAt` with its timestamp. -/
def chatAfter (chat : Chat) (calls : List SendCall) : Chat :=
  calls.foldl (fun ch c => appendedChat ch c.ty c.content c.time) chat

/-- The last of `u :: ts` (the value `updatedAt` holds after a sequence of
overwrites starting from `u`). -/
def lastTime (u : Nat) (ts : List Nat) : Nat :=
  ts.foldl (fun _ t => t) u

/-- A conversation record with the given fields and no cached preview. -/
def mkChat (id title : String) (messages : List Message) (createdAt updatedAt : Nat) :
    Chat :=
  { id := id, title := title, messages := messages,
    createdAt := createdAt, updatedAt := updatedAt, lastMessage := none }

end Coworker

namespace Coworker

theorem mapGet_some_id {chats : List Chat} {id : String} {chat : Chat}
    (h : mapGet chats id = some chat) : chat.id = id := by
  unfold mapGet at h
  have := List.find?_some h
  simpa using this

theorem find?_append_chats (l1 l2 : List Chat) (p : Chat → Bool) :
    (l1 ++ l2).find? p = (l1.find? p).orElse (fun _ => l2.find? p) := by
  induction l1 with
  | nil => rfl
  | cons c rest ih =>
    rw [List.cons_append]
    cases hc : p c with
    | true => simp only [List.find?_cons, hc]; rfl
    | false => simp only [List.find?_cons, hc]; exact ih

theorem find?_map_replace_pos (chats : List Chat) (chat : Chat)
    (h : chats.any (fun c => c.id == chat.id) = true) :
    (chats.map (fun c => if c.id == chat.id then chat else c)).find?
      (fun c => c.id == chat.id) = some chat := by
  induction chats with
  | nil => simp at h
  | cons c rest ih =>
    simp only [List.map_cons]
    cases hc : c.id == chat.id with
    | true =>
      rw [if_pos rfl]
      simp [List.find?_cons]
    | false =>
      have hrest : rest.any (fun x => x.id == chat.id) = true := by
        simp only [List.any_cons, hc, Bool.false_or] at h
        exact h
      rw [if_neg (by simp)]
      simp only [List.find?_cons, hc]
      exact ih hrest

theorem find?_map_replace_ne (chats : List Chat) (chat : Chat) (id : String)
    (h : id ≠ chat.id) :
    (chats.map (fun c => if c.id == chat.id then chat else c)).find?
      (fun c => c.id == id) = chats.find? (fun c => c.id == id) := by
  induction chats with
  | nil => rfl
  | cons c rest ih =>
    simp only [List.map_cons]
    cases hc : c.id == chat.id with
    | true =>
      have hcid : c.id = chat.id := eq_of_beq hc
      have h1 : (chat.id == id) = false := by
        simp only [beq_eq_false_iff_ne]
        exact fun e => h e.symm
      have h2 : (c.id == id) = false := by
        simp only [beq_eq_false_iff_ne]
        exact fun e => h (hcid ▸ e).symm
      rw [if_pos rfl]
      simp only [List.find?_cons, h1, h2]
      exact ih
    | false =>
      rw [if_neg (by simp)]
      simp only [List.find?_cons]
      cases hq : c.id == id with
      | true => rfl
      | false => exact ih

theorem mapGet_mapSet_self (chats : List Chat) (chat : Chat) :
    mapGet (mapSet chats chat) chat.id = some chat := by
  unfold mapGet mapSet
  by_cases h : chats.any (fun c => c.id == chat.id) = true
  · rw [if_pos h]
    exact find?_map_replace_pos chats chat h
  · rw [if_neg h, find?_append_chats]
    have hnone : chats.find? (fun c => c.id == chat.id) = none := by
      rw [List.find?_eq_none]
      intro x hx hpx
      exact h (List.any_eq_true.mpr ⟨x, hx, hpx⟩)
    rw [hnone]
    simp [List.find?_cons]

theorem mapGet_mapSet_ne (chats : List Chat) (chat : Chat) (id : String)
    (h : id ≠ chat.id) :
    mapGet (mapSet chats chat) id = mapGet chats id := by
  unfold mapGet mapSet
  by_cases hany : chats.any (fun c => c.id == chat.id) = true
  · rw [if_pos hany]
    exact find?_map_replace_ne chats chat id h
  · rw [if_neg hany, find?_append_chats]
    rcases hfind : chats.find? (fun c => c.id == id) with _ | found
    · rw [hfind]
      have hpred : (chat.id == id) = false := by
        simp only [beq_eq_false_iff_ne]
        exact fun e => h e.symm
      simp [List.find?_cons, hpred]
    · rw [hfind]
      rfl

theorem currentChat_eq {s : AppState} {cid : String} {chat : Chat}
    (hcur : s.currentChatId = some cid) (hget : mapGet s.chats cid = some chat) :
    currentChat s = some chat := by
  unfold currentChat
  rw [hcur]
  exact hget

theorem addMessageLocally_spec (s : AppState) (cid : String) (chat : Chat)
    (ty content : String) (now : Nat)
    (hcur : s.currentChatId = some cid) (hget : mapGet s.chats cid = some chat) :
    addMessageLocally s ty content now =
      { s with chats := mapSet s.chats (appendedChat chat ty content now) } := by
  unfold addMessageLocally
  rw [currentChat_eq hcur hget]

theorem addMessageLocally_none (s : AppState) (ty content : String) (now : Nat)
    (h : currentChat s = none) : addMessageLocally s ty content now = s := by
  unfold addMessageLocally
  rw [h]

theorem addMessageLocally_get_current (s : AppState) (cid : String) (chat : Chat)
    (ty content : String) (now : Nat)
    (hcur : s.currentChatId = some cid) (hget : mapGet s.chats cid = some chat) :
    mapGet (addMessageLocally s ty content now).chats cid =
      some (appendedChat chat ty content now) := by
  rw [addMessageLocally_spec s cid chat ty content now hcur hget]
  have hid : chat.id = cid := mapGet_some_id hget
  show mapGet (mapSet s.chats (appendedChat chat ty content now)) cid = _
  rw [← hid]
  exact mapGet_mapSet_self s.chats (appendedChat chat ty content now)

theorem addMessageLocally_get_other (s : AppState) (cid : String) (chat : Chat)
    (ty content : String) (now : Nat)
    (hcur : s.currentChatId = some cid) (hget : mapGet s.chats cid = some chat)
    (cid2 : String) (hne : cid2 ≠ cid) :
    mapGet (addMessageLocally s ty content now).chats cid2 = mapGet s.chats cid2 := by
  rw [addMessageLocally_spec s cid chat ty content now hcur hget]
  have hid : chat.id = cid := mapGet_some_id hget
  exact mapGet_mapSet_ne s.chats (appendedChat chat ty content now) cid2 (by
    show cid2 ≠ (appendedChat chat ty content now).id
    simpa [appendedChat, hid] using hne)

theorem appendRun_get (calls : List SendCall) :
    ∀ (s : AppState) (cid : String) (chat : Chat),
      s.currentChatId = some cid → mapGet s.chats cid = some chat →
      (appendRun s calls).currentChatId = some cid ∧
      mapGet (appendRun s calls).chats cid = some (chatAfter chat calls) := by
  induction calls with
  | nil =>
    intro s cid chat hcur hget
    exact ⟨hcur, by simpa [appendRun, chatAfter] using hget⟩
  | cons c cs ih =>
    intro s cid chat hcur hget
    have hstep := addMessageLocally_spec s cid chat c.ty c.content c.time hcur hget
    have hcur2 : (addMessageLocally s c.ty c.content c.time).currentChatId = some cid := by
      rw [hstep]
      exact hcur
    have hget2 := addMessageLocally_get_current s cid chat c.ty c.content c.time hcur hget
    have := ih (addMessageLocally s c.ty c.content c.time) cid
      (appendedChat chat c.ty c.content c.time) hcur2 hget2
    simpa [appendRun, chatAfter] using this

theorem chatAfter_messages (chat : Chat) (calls : List SendCall) :
    (chatAfter chat calls).messages = chat.messages ++ calls.map mkMsg := by
  induction calls generalizing chat with
  | nil => simp [chatAfter]
  | cons c cs ih =>
    have : chatAfter chat (c :: cs) = chatAfter (appendedChat chat c.ty c.content c.time) cs := rfl
    rw [this, ih]
    simp [appendedChat, mkMsg]

theorem chatAfter_createdAt (chat : Chat) (calls : List SendCall) :
    (chatAfter chat calls).createdAt = chat.createdAt := by
  induction calls generalizing chat with
  | nil => rfl
  | cons c cs ih =>
    have : chatAfter chat (c :: cs) = chatAfter (appendedChat chat c.ty c.content c.time) cs := rfl
    rw [this, ih]
    simp [appendedChat]

theorem chatAfter_updatedAt (chat : Chat) (calls : List SendCall) :
    (chatAfter chat calls).updatedAt = lastTime chat.updatedAt (calls.map (fun c => c.time)) := by
  induction calls generalizing chat with
  | nil => rfl
  | cons c cs ih =>
    have h1 : chatAfter chat (c :: cs) = chatAfter (appendedChat chat c.ty c.content c.time) cs := rfl
    have h2 : lastTime chat.updatedAt ((c :: cs).map (fun x => x.time)) =
        lastTime c.time (cs.map (fun x => x.time)) := rfl
    rw [h1, ih, h2]
    simp [appendedChat]

theorem lastTime_chain (ts : List Nat) :
    ∀ u : Nat, List.Chain' (fun a b => a ≤ b) (u :: ts) →
      ∀ i : Nat, lastTime u (ts.take i) ≤ lastTime u (ts.take (i + 1)) ∧
        u ≤ lastTime u (ts.take i) := by
  induction ts with
  | nil =>
    intro u _ i
    simp [lastTime]
  | cons t rest ih =>
    intro u hchain i
    have hut : u ≤ t := (List.chain'_cons.mp hchain).1
    have hchain2 : List.Chain' (fun a b => a ≤ b) (t :: rest) := (List.chain'_cons.mp hchain).2
    cases i with
    | zero =>
      refine ⟨?_, le_refl u⟩
      simpa [lastTime] using hut
    | succ j =>
      have h := ih t hchain2 j
      have e1 : lastTime u ((t :: rest).take (j + 1)) = lastTime t (rest.take j) := rfl
      have e2 : lastTime u ((t :: rest).take (j + 2)) = lastTime t (rest.take (j + 1)) := rfl
      refine ⟨?_, ?_⟩
      · rw [e1, e2]
        exact h.1
      · rw [e1]
        exact le_trans hut h.2

/-- C5: for every sequence of message appends to one conversation (each
`addMessageLocally` call carrying the clock value it reads), the resulting
message order equals call order, and after each append the conversation's
`updatedAt` is ≥ its value before the append and always ≥ `createdAt` —
given the run starts consistent (`createdAt ≤ updatedAt`) and the
single-threaded clock is non-decreasing across the calls. -/
theorem C5_append_order_updatedAt (s : AppState) (cid : String) (chat : Chat)
    (calls : List SendCall)
    (hcur : s.currentChatId = some cid)
    (hget : mapGet s.chats cid = some chat)
    (hchain : List.Chain' (fun a b => a ≤ b) (chat.updatedAt :: calls.map (fun c => c.time)))
    (hca : chat.createdAt ≤ chat.updatedAt) :
    ∀ i : Nat, i ≤ calls.length →
      mapGet (appendRun s (calls.take i)).chats cid = some (chatAfter chat (calls.take i)) ∧
      (chatAfter chat (calls.take i)).messages = chat.messages ++ (calls.take i).map mkMsg ∧
      (chatAfter chat (calls.take i)).updatedAt ≤ (chatAfter chat (calls.take (i + 1))).updatedAt ∧
      (chatAfter chat (calls.take i)).createdAt ≤ (chatAfter chat (calls.take i)).updatedAt := by
  intro i _
  have hlast := lastTime_chain (calls.map (fun c => c.time)) chat.updatedAt hchain i
  refine ⟨(appendRun_get (calls.take i) s cid chat hcur hget).2,
    chatAfter_messages chat (calls.take i), ?_, ?_⟩
  · rw [chatAfter_updatedAt, chatAfter_updatedAt, List.map_take, List.map_take]
    exact hlast.1
  · rw [chatAfter_createdAt, chatAfter_updatedAt, List.map_take]
    exact le_trans hca hlast.2

/-- Witness for C5: a two-append run on a concrete one-chat store. -/
theorem C5_append_order_updatedAt_witness :
    mapGet (appendRun
        { currentChatId := some "a", chats := [mkChat "a" "A" [] 1 1],
          chatCounter := 1, isLoading := false, userMemory := [] }
        ([⟨"user", "hi", 5⟩, ⟨"ai", "yo", 6⟩].take 2)).chats "a" =
      some (chatAfter (mkChat "a" "A" [] 1 1) ([⟨"user", "hi", 5⟩, ⟨"ai", "yo", 6⟩].take 2)) ∧
    (chatAfter (mkChat "a" "A" [] 1 1) ([⟨"user", "hi", 5⟩, ⟨"ai", "yo", 6⟩].take 2)).messages =
      (mkChat "a" "A" [] 1 1).messages ++
        ([(⟨"user", "hi", 5⟩ : SendCall), ⟨"ai", "yo", 6⟩].take 2).map mkMsg ∧
    (chatAfter (mkChat "a" "A" [] 1 1) ([⟨"user", "hi", 5⟩, ⟨"ai", "yo", 6⟩].take 2)).updatedAt ≤
      (chatAfter (mkChat "a" "A" [] 1 1) ([⟨"user", "hi", 5⟩, ⟨"ai", "yo", 6⟩].take (2 + 1))).updatedAt ∧
    (chatAfter (mkChat "a" "A" [] 1 1) ([⟨"user", "hi", 5⟩, ⟨"ai", "yo", 6⟩].take 2)).createdAt ≤
      (chatAfter (mkChat "a" "A" [] 1 1) ([⟨"user", "hi", 5⟩, ⟨"ai", "yo", 6⟩].take 2)).updatedAt :=
  C5_append_order_updatedAt
    { currentChatId := some "a", chats := [mkChat "a" "A" [] 1 1],
      chatCounter := 1, isLoading := false, userMemory := [] }
    "a" (mkChat "a" "A" [] 1 1) [⟨"user", "hi", 5⟩, ⟨"ai", "yo", 6⟩]
    rfl (by decide) (by simp [mkChat, List.chain'_cons, List.chain'_singleton]) (by decide)
    2 (by decide)

/-- C9: for every non-negative elapsed time, `formatTime` returns "Now"
under 1 minute, "{m}m ago" under 60 minutes, "{h}h ago" under 24 hours,
"{d}d ago" under 7 days, and a locale-formatted absolute date otherwise,
with floor division by 60000, 3600000 and 86400000 and exact boundaries
falling into the lower-granularity bucket (3600000 ms gives "1h ago"). -/
theorem C9_formatTime_buckets (d : Nat) :
    (d < 60000 → formatTime d = .relative "Now") ∧
    (60000 ≤ d → d < 3600000 →
      formatTime d = .relative (toString (d / 60000) ++ "m ago")) ∧
    (3600000 ≤ d → d < 86400000 →
      formatTime d = .relative (toString (d / 3600000) ++ "h ago")) ∧
    (86400000 ≤ d → d < 7 * 86400000 →
      formatTime d = .relative (toString (d / 86400000) ++ "d ago")) ∧
    (7 * 86400000 ≤ d → formatTime d = .absoluteDate) := by
  refine ⟨?_, ?_, ?_, ?_, ?_⟩
  · intro h
    have h1 : d / 60000 < 1 := by omega
    simp [formatTime, h1]
  · intro h1 h2
    have a1 : ¬ d / 60000 < 1 := by omega
    have a2 : d / 60000 < 60 := by omega
    simp [formatTime, a1, a2]
  · intro h1 h2
    have a1 : ¬ d / 60000 < 1 := by omega
    have a2 : ¬ d / 60000 < 60 := by omega
    have a3 : d / 3600000 < 24 := by omega
    simp [formatTime, a1, a2, a3]
  · intro h1 h2
    have a1 : ¬ d / 60000 < 1 := by omega
    have a2 : ¬ d / 60000 < 60 := by omega
    have a3 : ¬ d / 3600000 < 24 := by omega
    have a4 : d / 86400000 < 7 := by omega
    simp [formatTime, a1, a2, a3, a4]
  · intro h
    have a1 : ¬ d / 60000 < 1 := by omega
    have a2 : ¬ d / 60000 < 60 := by omega
    have a3 : ¬ d / 3600000 < 24 := by omega
    have a4 : ¬ d / 86400000 < 7 := by omega
    simp [formatTime, a1, a2, a3, a4]

/-- Witness for C9: exactly one hour elapsed lands in the hour bucket as
"1h ago" (not "60m ago"), and 59 seconds is still "Now". -/
theorem C9_formatTime_buckets_witness :
    formatTime 3600000 = .relative "1h ago" ∧ formatTime 59000 = .relative "Now" := by
  have h1 := (C9_formatTime_buckets 3600000).2.2.1 (by decide) (by decide)
  have h2 := (C9_formatTime_buckets 59000).1 (by decide)
  exact ⟨by rw [h1]; rfl, h2⟩

theorem updateTitle_none (s : AppState) (m : String) (ok : Bool)
    (h : currentChat s = none) : updateChatTitleFromFirstMessage s m ok = s := by
  unfold updateChatTitleFromFirstMessage
  rw [h]

theorem updateTitle_eq_some (s : AppState) (m : String) (ok : Bool) (chat : Chat)
    (h : currentChat s = some chat) :
    updateChatTitleFromFirstMessage s m ok =
      if chat.messages.length > 2 then s
      else
        { s with
          chats := mapSet s.chats
            ({ chat with title := if m.length > 40 then m.take 40 ++ "..." else m }) } := by
  unfold updateChatTitleFromFirstMessage
  rw [h]

theorem updateTitle_currentChatId (s : AppState) (m : String) (ok : Bool) :
    (updateChatTitleFromFirstMessage s m ok).currentChatId = s.currentChatId := by
  rcases h : currentChat s with _ | chat
  · rw [updateTitle_none s m ok h]
  · rw [updateTitle_eq_some s m ok chat h]
    by_cases hlen : chat.messages.length > 2
    · rw [if_pos hlen]
    · rw [if_neg hlen]

theorem updateTitle_messages (s : AppState) (m : String) (ok : Bool) (cid : String)
    (chat : Chat)
    (hcur : s.currentChatId = some cid) (hget : mapGet s.chats cid = some chat) :
    ∃ chat2, mapGet (updateChatTitleFromFirstMessage s m ok).chats cid = some chat2 ∧
      chat2.messages = chat.messages ∧ chat2.updatedAt = chat.updatedAt := by
  rw [updateTitle_eq_some s m ok chat (currentChat_eq hcur hget)]
  by_cases hlen : chat.messages.length > 2
  · rw [if_pos hlen]
    exact ⟨chat, hget, rfl, rfl⟩
  · rw [if_neg hlen]
    dsimp only
    refine ⟨{ chat with title := if m.length > 40 then m.take 40 ++ "..." else m }, ?_, rfl, rfl⟩
    have hid : chat.id = cid := mapGet_some_id hget
    rw [← hid]
    exact mapGet_mapSet_self s.chats _

theorem updateTitle_get_other (s : AppState) (m : String) (ok : Bool) (cid : String)
    (chat : Chat)
    (hcur : s.currentChatId = some cid) (hget : mapGet s.chats cid = some chat)
    (cid2 : String) (hne : cid2 ≠ cid) :
    mapGet (updateChatTitleFromFirstMessage s m ok).chats cid2 = mapGet s.chats cid2 := by
  rw [updateTitle_eq_some s m ok chat (currentChat_eq hcur hget)]
  by_cases hlen : chat.messages.length > 2
  · rw [if_pos hlen]
  · rw [if_neg hlen]
    have hid : chat.id = cid := mapGet_some_id hget
    have hne2 : cid2 ≠
        ({ chat with title := if m.length > 40 then m.take 40 ++ "..." else m } : Chat).id := by
      simpa [hid] using hne
    exact mapGet_mapSet_ne s.chats _ cid2 hne2

theorem loadUserMemoryApply_chats (s : AppState) (r : Option (List (String × String))) :
    (loadUserMemoryApply s r).chats = s.chats := by
  cases r <;> rfl

theorem loadUserMemoryApply_currentChatId (s : AppState)
    (r : Option (List (String × String))) :
    (loadUserMemoryApply s r).currentChatId = s.currentChatId := by
  cases r <;> rfl

theorem sendMessageComplete_fail_chats (s : AppState) (msg : String)
    (out : ExchangeOutcome) (t : Nat) (memOut : Option (List (String × String)))
    (hfail : out = .networkFailure ∨ ∃ e, out = .appError e) :
    (sendMessageComplete s msg out t memOut).chats =
      (addMessageLocally s "ai" (replyContent out) t).chats := by
  rcases hfail with hf | ⟨e, hf⟩ <;> subst hf <;> rfl

theorem sendMessageComplete_success_chats (s : AppState) (msg resp : String) (t : Nat)
    (memOut : Option (List (String × String))) :
    (sendMessageComplete s msg (.success resp) t memOut).chats =
      (updateChatTitleFromFirstMessage (addMessageLocally s "ai" resp t) msg true).chats := by
  cases memOut <;> rfl

/-- C6: `sendMessage` rejects — appends nothing, issues no request, leaves
the state unchanged — whenever the input is blank after trimming or a send
is already in flight (one global in-flight flag); and whenever it does
proceed, the in-flight flag is false again on every outcome (success,
application error, network failure) before control returns. -/
theorem C6_send_guard_single_flight (s : AppState) (input : String) (t1 t2 : Nat)
    (out : ExchangeOutcome) (memOut : Option (List (String × String))) :
    ((jsTrim input = "" ∨ s.isLoading = true) →
      sendMessage s input t1 t2 out memOut = (s, false)) ∧
    (jsTrim input ≠ "" → s.isLoading = false →
      (sendMessage s input t1 t2 out memOut).2 = true ∧
      (sendMessage s input t1 t2 out memOut).1.isLoading = false) := by
  constructor
  · intro h
    simp only [sendMessage]
    rw [if_pos h]
  · intro h1 h2
    have hng : ¬ (jsTrim input = "" ∨ s.isLoading = true) := by
      rintro (h | h)
      · exact h1 h
      · rw [h2] at h
        exact Bool.false_ne_true h
    simp only [sendMessage]
    rw [if_neg hng]
    refine ⟨rfl, ?_⟩
    cases out <;> rfl

/-- Witness for C6: a blank input is rejected with the store untouched, and
a real send on an idle client issues the request and ends not-in-flight
even on network failure. -/
theorem C6_send_guard_single_flight_witness :
    (sendMessage
        { currentChatId := some "a", chats := [mkChat "a" "A" [] 1 1],
          chatCounter := 1, isLoading := false, userMemory := [] }
        "  " 1 2 .networkFailure none =
      ({ currentChatId := some "a", chats := [mkChat "a" "A" [] 1 1],
          chatCounter := 1, isLoading := false, userMemory := [] }, false)) ∧
    ((sendMessage
        { currentChatId := some "a", chats := [mkChat "a" "A" [] 1 1],
          chatCounter := 1, isLoading := false, userMemory := [] }
        "hi" 1 2 .networkFailure none).2 = true ∧
     (sendMessage
        { currentChatId := some "a", chats := [mkChat "a" "A" [] 1 1],
          chatCounter := 1, isLoading := false, userMemory := [] }
        "hi" 1 2 .networkFailure none).1.isLoading = false) :=
  ⟨(C6_send_guard_single_flight
      { currentChatId := some "a", chats := [mkChat "a" "A" [] 1 1],
        chatCounter := 1, isLoading := false, userMemory := [] }
      "  " 1 2 .networkFailure none).1 (Or.inl (by decide)),
   (C6_send_guard_single_flight
      { currentChatId := some "a", chats := [mkChat "a" "A" [] 1 1],
        chatCounter := 1, isLoading := false, userMemory := [] }
      "hi" 1 2 .networkFailure none).2 (by decide) rfl⟩

/-- C7: for every send whose exchange call fails (application-level error
response or transport failure), the user's already-appended turn remains in
the conversation, followed by exactly one synthetic assistant-role message;
nothing is rolled back. -/
theorem C7_failed_exchange_preserves_user_turn (s : AppState) (input : String)
    (cid : String) (chat : Chat) (t1 t2 : Nat) (out : ExchangeOutcome)
    (memOut : Option (List (String × String)))
    (hcur : s.currentChatId = some cid) (hget : mapGet s.chats cid = some chat)
    (h1 : jsTrim input ≠ "") (h2 : s.isLoading = false)
    (hfail : out = .networkFailure ∨ ∃ e, out = .appError e) :
    mapGet (sendMessage s input t1 t2 out memOut).1.chats cid =
      some { chat with
        messages := chat.messages ++
          [⟨"user", jsTrim input, t1⟩, ⟨"ai", replyContent out, t2⟩],
        updatedAt := t2 } := by
  have hng : ¬ (jsTrim input = "" ∨ s.isLoading = true) := by
    rintro (h | h)
    · exact h1 h
    · rw [h2] at h
      exact Bool.false_ne_true h
  simp only [sendMessage]
  rw [if_neg hng]
  show mapGet (sendMessageComplete _ _ _ _ _).chats cid = _
  rw [sendMessageComplete_fail_chats _ _ _ _ _ hfail]
  have hcur1 : ({ s with isLoading := true } : AppState).currentChatId = some cid := hcur
  have hget1 : mapGet ({ s with isLoading := true } : AppState).chats cid = some chat := hget
  have hstep1 := addMessageLocally_spec { s with isLoading := true } cid chat
    "user" (jsTrim input) t1 hcur1 hget1
  have hcur2 : (addMessageLocally { s with isLoading := true } "user" (jsTrim input) t1).currentChatId
      = some cid := by
    rw [hstep1]
    exact hcur
  have hget2 := addMessageLocally_get_current { s with isLoading := true } cid chat
    "user" (jsTrim input) t1 hcur1 hget1
  have h3 := addMessageLocally_get_current
    (addMessageLocally { s with isLoading := true } "user" (jsTrim input) t1) cid
    (appendedChat chat "user" (jsTrim input) t1) "ai" (replyContent out) t2 hcur2 hget2
  rw [h3]
  simp [appendedChat]

/-- Witness for C7: a failed exchange on a concrete one-chat store leaves
the user turn followed by exactly one synthetic assistant message. -/
theorem C7_failed_exchange_preserves_user_turn_witness :
    mapGet (sendMessage
        { currentChatId := some "a", chats := [mkChat "a" "A" [] 1 1],
          chatCounter := 1, isLoading := false, userMemory := [] }
        "hi" 5 6 (.appError none) none).1.chats "a" =
      some { mkChat "a" "A" [] 1 1 with
        messages := (mkChat "a" "A" [] 1 1).messages ++
          [⟨"user", jsTrim "hi", 5⟩, ⟨"ai", replyContent (.appError none), 6⟩],
        updatedAt := 6 } :=
  C7_failed_exchange_preserves_user_turn
    { currentChatId := some "a", chats := [mkChat "a" "A" [] 1 1],
      chatCounter := 1, isLoading := false, userMemory := [] }
    "hi" "a" (mkChat "a" "A" [] 1 1) 5 6 (.appError none) none
    rfl (by decide) (by decide) rfl (Or.inr ⟨none, rfl⟩)

/-- C8: title derivation applies only while the current conversation's
message count is at or below 2: the title becomes the user's message,
truncated to its first 40 characters plus an ellipsis marker when longer
than 40; once the count exceeds 2 the call changes nothing (later exchanges
never overwrite the title); and the local result is the same whether the
backend propagation call succeeds or fails. -/
theorem C8_title_derivation (s : AppState) (m : String) (ok : Bool) (cid : String)
    (chat : Chat)
    (hcur : s.currentChatId = some cid) (hget : mapGet s.chats cid = some chat) :
    (chat.messages.length ≤ 2 →
      mapGet (updateChatTitleFromFirstMessage s m ok).chats cid =
        some { chat with title := if m.length > 40 then m.take 40 ++ "..." else m }) ∧
    (chat.messages.length > 2 → updateChatTitleFromFirstMessage s m ok = s) ∧
    updateChatTitleFromFirstMessage s m ok = updateChatTitleFromFirstMessage s m false := by
  refine ⟨?_, ?_, rfl⟩
  · intro hle
    rw [updateTitle_eq_some s m ok chat (currentChat_eq hcur hget)]
    have hgt : ¬ chat.messages.length > 2 := by omega
    rw [if_neg hgt]
    have hid : chat.id = cid := mapGet_some_id hget
    show mapGet (mapSet s.chats _) cid = _
    rw [← hid]
    exact mapGet_mapSet_self s.chats _
  · intro hgt
    rw [updateTitle_eq_some s m ok chat (currentChat_eq hcur hget)]
    rw [if_pos hgt]

/-- Witness for C8: the spec's long first message yields the 40-character
truncation with the ellipsis marker on a concrete two-message chat. -/
theorem C8_title_derivation_witness :
    mapGet (updateChatTitleFromFirstMessage
        { currentChatId := some "a",
          chats := [mkChat "a" "New Conversation"
            [⟨"user", "q", 1⟩, ⟨"ai", "r", 2⟩] 1 2],
          chatCounter := 1, isLoading := false, userMemory := [] }
        "Explain recursion in programming with a long example text exceeding forty chars"
        true).chats "a" =
      some { mkChat "a" "New Conversation" [⟨"user", "q", 1⟩, ⟨"ai", "r", 2⟩] 1 2 with
        title :=
          if ("Explain recursion in programming with a long example text exceeding forty chars").length > 40 then
            ("Explain recursion in programming with a long example text exceeding forty chars").take 40 ++ "..."
          else
            "Explain recursion in programming with a long example text exceeding forty chars" } :=
  (C8_title_derivation
    { currentChatId := some "a",
      chats := [mkChat "a" "New Conversation" [⟨"user", "q", 1⟩, ⟨"ai", "r", 2⟩] 1 2],
      chatCounter := 1, isLoading := false, userMemory := [] }
    "Explain recursion in programming with a long example text exceeding forty chars"
    true "a" (mkChat "a" "New Conversation" [⟨"user", "q", 1⟩, ⟨"ai", "r", 2⟩] 1 2)
    rfl (by decide)).1 (by decide)

/-- C10: whatever state holds when the exchange response arrives, the reply
(or synthetic error message) is appended to the conversation that is
current at that moment: that conversation's record gains exactly one
assistant message at its end, every other conversation's record is
untouched, and when the current id references no conversation in the store
(or is null) the conversation store is left unchanged — the reply is
silently dropped. -/
theorem C10_reply_targets_current_at_completion (s : AppState) (msg : String)
    (out : ExchangeOutcome) (t : Nat) (memOut : Option (List (String × String))) :
    (currentChat s = none → (sendMessageComplete s msg out t memOut).chats = s.chats) ∧
    (∀ cid chat, s.currentChatId = some cid → mapGet s.chats cid = some chat →
      (∃ chat2, mapGet (sendMessageComplete s msg out t memOut).chats cid = some chat2 ∧
        chat2.messages = chat.messages ++ [⟨"ai", replyContent out, t⟩]) ∧
      (∀ cid2, cid2 ≠ cid →
        mapGet (sendMessageComplete s msg out t memOut).chats cid2 = mapGet s.chats cid2)) := by
  constructor
  · intro hnone
    rcases hout : out with resp | e | _
    · rw [sendMessageComplete_success_chats]
      rw [addMessageLocally_none s "ai" resp t hnone]
      rw [updateTitle_none s msg true hnone]
    · rw [sendMessageComplete_fail_chats _ _ _ _ _ (Or.inr ⟨e, rfl⟩)]
      rw [addMessageLocally_none s _ _ t hnone]
    · rw [sendMessageComplete_fail_chats _ _ _ _ _ (Or.inl rfl)]
      rw [addMessageLocally_none s _ _ t hnone]
  · intro cid chat hcur hget
    rcases hout : out with resp | e | _
    · -- success: append, then title update (messages preserved), then memory
      have hcur1 : (addMessageLocally s "ai" resp t).currentChatId = some cid := by
        rw [addMessageLocally_spec s cid chat "ai" resp t hcur hget]
        exact hcur
      have hget1 := addMessageLocally_get_current s cid chat "ai" resp t hcur hget
      constructor
      · rw [sendMessageComplete_success_chats]
        rcases updateTitle_messages (addMessageLocally s "ai" resp t) msg true cid
          (appendedChat chat "ai" resp t) hcur1 hget1 with ⟨chat2, hg, hm, _⟩
        exact ⟨chat2, hg, by rw [hm]; rfl⟩
      · intro cid2 hne
        rw [sendMessageComplete_success_chats]
        rw [updateTitle_get_other (addMessageLocally s "ai" resp t) msg true cid
          (appendedChat chat "ai" resp t) hcur1 hget1 cid2 hne]
        exact addMessageLocally_get_other s cid chat "ai" resp t hcur hget cid2 hne
    · constructor
      · rw [sendMessageComplete_fail_chats _ _ _ _ _ (Or.inr ⟨e, rfl⟩)]
        exact ⟨appendedChat chat "ai" (replyContent (.appError e)) t,
          addMessageLocally_get_current s cid chat _ _ t hcur hget, rfl⟩
      · intro cid2 hne
        rw [sendMessageComplete_fail_chats _ _ _ _ _ (Or.inr ⟨e, rfl⟩)]
        exact addMessageLocally_get_other s cid chat _ _ t hcur hget cid2 hne
    · constructor
      · rw [sendMessageComplete_fail_chats _ _ _ _ _ (Or.inl rfl)]
        exact ⟨appendedChat chat "ai" (replyContent .networkFailure) t,
          addMessageLocally_get_current s cid chat _ _ t hcur hget, rfl⟩
      · intro cid2 hne
        rw [sendMessageComplete_fail_chats _ _ _ _ _ (Or.inl rfl)]
        exact addMessageLocally_get_other s cid chat _ _ t hcur hget cid2 hne

/-- Witness for C10: on a two-chat store whose current conversation is the
one the user switched to mid-flight, the reply lands on that conversation
and the other conversation is untouched. -/
theorem C10_reply_targets_current_at_completion_witness :
    (∃ chat2, mapGet (sendMessageComplete
        { currentChatId := some "b",
          chats := [mkChat "a" "A" [] 1 1, mkChat "b" "B" [⟨"user", "hello", 4⟩] 2 6],
          chatCounter := 1, isLoading := true, userMemory := [] }
        "hello" (.success "hi there") 9 none).chats "b" = some chat2 ∧
      chat2.messages = (mkChat "b" "B" [⟨"user", "hello", 4⟩] 2 6).messages ++
        [⟨"ai", replyContent (.success "hi there"), 9⟩]) ∧
    (∀ cid2, cid2 ≠ "b" →
      mapGet (sendMessageComplete
        { currentChatId := some "b",
          chats := [mkChat "a" "A" [] 1 1, mkChat "b" "B" [⟨"user", "hello", 4⟩] 2 6],
          chatCounter := 1, isLoading := true, userMemory := [] }
        "hello" (.success "hi there") 9 none).chats cid2 =
      mapGet
        ({ currentChatId := some "b",
           chats := [mkChat "a" "A" [] 1 1, mkChat "b" "B" [⟨"user", "hello", 4⟩] 2 6],
           chatCounter := 1, isLoading := true, userMemory := [] } : AppState).chats cid2) :=
  (C10_reply_targets_current_at_completion
    { currentChatId := some "b",
      chats := [mkChat "a" "A" [] 1 1, mkChat "b" "B" [⟨"user", "hello", 4⟩] 2 6],
      chatCounter := 1, isLoading := true, userMemory := [] }
    "hello" (.success "hi there") 9 none).2 "b"
    (mkChat "b" "B" [⟨"user", "hello", 4⟩] 2 6) rfl (by decide)

theorem applyHistory_get (s : AppState) (chatId : String) (chat : Chat)
    (entries : List HistEntry) (now : Nat)
    (hget : mapGet s.chats chatId = some chat) :
    mapGet (applyHistory s chatId (.history entries) now).chats chatId =
      some { chat with messages := entries.map (histToMsg now) } := by
  unfold applyHistory
  rw [hget]
  dsimp only
  have hid : chat.id = chatId := mapGet_some_id hget
  rw [← hid]
  exact mapGet_mapSet_self s.chats _

theorem switchStart_awaiting (s : AppState) (chatId : String) (chat : Chat)
    (hne : s.currentChatId ≠ some chatId) (hget : mapGet s.chats chatId = some chat)
    (hempty : chat.messages = []) :
    switchStart s chatId = (.awaiting chatId, true) := by
  unfold switchStart
  rw [if_neg hne, hget]
  dsimp only
  rw [if_pos (by simp [hempty])]

/-- Counterexample to C2: with conversation "x" present, not current and
not yet loaded, the event-loop interleaving of two concurrent
`switchToChat("x")` calls issues two history fetches for "x", not one —
the code has no per-id in-flight de-duplication. -/
theorem C2_counterexample_two_fetches :
    (concurrentSwitchRun
      { currentChatId := some "y",
        chats := [mkChat "x" "X" [] 1 1, mkChat "y" "Y" [⟨"user", "m", 2⟩] 2 2],
        chatCounter := 1, isLoading := false, userMemory := [] }
      "x" (.history [⟨"user", some "h", some 3, none⟩])
      (.history [⟨"user", some "h", some 3, none⟩]) 10 11).2 = 2 := by
  decide

/-- C2 amended: two concurrent `switchToChat` calls to the same
not-yet-loaded conversation id each issue their own history fetch — two
GET requests, with no de-duplication — and, when both fetches return the
same history, both calls still converge on the same loaded state: the
target becomes current and holds the fetched messages. -/
theorem C2_amended_concurrent_switch (s : AppState) (chatId : String) (chat : Chat)
    (entries : List HistEntry) (tA tB : Nat)
    (hne : s.currentChatId ≠ some chatId) (hget : mapGet s.chats chatId = some chat)
    (hempty : chat.messages = []) :
    (concurrentSwitchRun s chatId (.history entries) (.history entries) tA tB).2 = 2 ∧
    (concurrentSwitchRun s chatId (.history entries) (.history entries) tA tB).1.currentChatId
      = some chatId ∧
    ∃ chat2,
      mapGet (concurrentSwitchRun s chatId (.history entries) (.history entries) tA tB).1.chats
        chatId = some chat2 ∧
      chat2.messages = entries.map (histToMsg tB) := by
  have hstart := switchStart_awaiting s chatId chat hne hget hempty
  unfold concurrentSwitchRun
  rw [hstart]
  dsimp only
  refine ⟨rfl, rfl, ?_⟩
  have hget1 : mapGet (switchResume s chatId (.history entries) tA).chats chatId =
      some { chat with messages := entries.map (histToMsg tA) } := by
    show mapGet (applyHistory s chatId (.history entries) tA).chats chatId = _
    exact applyHistory_get s chatId chat entries tA hget
  have hget2 := applyHistory_get (switchResume s chatId (.history entries) tA) chatId
    { chat with messages := entries.map (histToMsg tA) } entries tB hget1
  exact ⟨_, hget2, rfl⟩

/-- Witness for the amended C2 on a concrete two-chat store. -/
theorem C2_amended_concurrent_switch_witness :
    (concurrentSwitchRun
      { currentChatId := some "y",
        chats := [mkChat "x" "X" [] 1 1, mkChat "y" "Y" [⟨"user", "m", 2⟩] 2 2],
        chatCounter := 1, isLoading := false, userMemory := [] }
      "x" (.history [⟨"user", some "h", some 3, none⟩])
      (.history [⟨"user", some "h", some 3, none⟩]) 10 11).2 = 2 ∧
    (concurrentSwitchRun
      { currentChatId := some "y",
        chats := [mkChat "x" "X" [] 1 1, mkChat "y" "Y" [⟨"user", "m", 2⟩] 2 2],
        chatCounter := 1, isLoading := false, userMemory := [] }
      "x" (.history [⟨"user", some "h", some 3, none⟩])
      (.history [⟨"user", some "h", some 3, none⟩]) 10 11).1.currentChatId = some "x" ∧
    ∃ chat2,
      mapGet (concurrentSwitchRun
        { currentChatId := some "y",
          chats := [mkChat "x" "X" [] 1 1, mkChat "y" "Y" [⟨"user", "m", 2⟩] 2 2],
          chatCounter := 1, isLoading := false, userMemory := [] }
        "x" (.history [⟨"user", some "h", some 3, none⟩])
        (.history [⟨"user", some "h", some 3, none⟩]) 10 11).1.chats "x" = some chat2 ∧
      chat2.messages = [(⟨"user", some "h", some 3, none⟩ : HistEntry)].map (histToMsg 11) :=
  C2_amended_concurrent_switch
    { currentChatId := some "y",
      chats := [mkChat "x" "X" [] 1 1, mkChat "y" "Y" [⟨"user", "m", 2⟩] 2 2],
      chatCounter := 1, isLoading := false, userMemory := [] }
    "x" (mkChat "x" "X" [] 1 1) [⟨"user", some "h", some 3, none⟩] 10 11
    (by decide) (by decide) rfl

/-- Counterexample to C4: conversation "x" is switched to and its history
fetch returns a legitimately empty `history` array (loaded-empty); after
switching away to "y" and then switching back towards "x", `switchToChat`
issues another history fetch for "x" — the loaded-empty state is
indistinguishable from not-loaded, so the conversation is refetched. -/
theorem C4_counterexample_refetch_empty :
    (switchStart
      (switchToChatRun
        (switchToChatRun
          { currentChatId := some "y",
            chats := [mkChat "x" "X" [] 1 1, mkChat "y" "Y" [⟨"user", "m", 2⟩] 2 2],
            chatCounter := 1, isLoading := false, userMemory := [] }
          "x" (.history []) 10).1
        "y" .fetchFail 11).1
      "x").2 = true := by
  decide

/-- C4 amended: the fetch-skip criterion on switch is solely whether the
target conversation currently holds at least one message in memory: a
conversation with a non-empty message list is switched to with no fetch,
while one with an empty message list — whether never loaded or loaded as
legitimately empty — triggers a history fetch; no explicit
not-loaded / loaded-empty distinction is tracked. -/
theorem C4_amended_fetch_criterion (s : AppState) (chatId : String) (chat : Chat)
    (hne : s.currentChatId ≠ some chatId) (hget : mapGet s.chats chatId = some chat) :
    (switchStart s chatId).2 = chat.messages.isEmpty ∧
    (chat.messages.isEmpty = false →
      switchStart s chatId = (.done { s with currentChatId := some chatId }, false)) ∧
    (chat.messages.isEmpty = true →
      switchStart s chatId = (.awaiting chatId, true)) := by
  unfold switchStart
  rw [if_neg hne, hget]
  dsimp only
  cases he : chat.messages.isEmpty <;> simp

/-- Witness for the amended C4: a loaded, non-empty conversation is
switched to without a fetch; its `isEmpty` test is false. -/
theorem C4_amended_fetch_criterion_witness :
    (switchStart
      { currentChatId := some "x",
        chats := [mkChat "x" "X" [] 1 1, mkChat "y" "Y" [⟨"user", "m", 2⟩] 2 2],
        chatCounter := 1, isLoading := false, userMemory := [] }
      "y").2 = (mkChat "y" "Y" [⟨"user", "m", 2⟩] 2 2).messages.isEmpty ∧
    ((mkChat "y" "Y" [⟨"user", "m", 2⟩] 2 2).messages.isEmpty = false →
      switchStart
        { currentChatId := some "x",
          chats := [mkChat "x" "X" [] 1 1, mkChat "y" "Y" [⟨"user", "m", 2⟩] 2 2],
          chatCounter := 1, isLoading := false, userMemory := [] }
        "y" =
      (.done { currentChatId := some "y",
               chats := [mkChat "x" "X" [] 1 1, mkChat "y" "Y" [⟨"user", "m", 2⟩] 2 2],
               chatCounter := 1, isLoading := false, userMemory := [] }, false)) ∧
    ((mkChat "y" "Y" [⟨"user", "m", 2⟩] 2 2).messages.isEmpty = true →
      switchStart
        { currentChatId := some "x",
          chats := [mkChat "x" "X" [] 1 1, mkChat "y" "Y" [⟨"user", "m", 2⟩] 2 2],
          chatCounter := 1, isLoading := false, userMemory := [] }
        "y" = (.awaiting "y", true)) := by
  have h := C4_amended_fetch_criterion
    { currentChatId := some "x",
      chats := [mkChat "x" "X" [] 1 1, mkChat "y" "Y" [⟨"user", "m", 2⟩] 2 2],
      chatCounter := 1, isLoading := false, userMemory := [] }
    "y" (mkChat "y" "Y" [⟨"user", "m", 2⟩] 2 2) (by decide) (by decide)
  exact h

/-- C1: evaluating `deleteChat` on a store holding the current conversation
"c" plus "a" (updatedAt 1) and "b" (updatedAt 2), in that insertion order.
The code selects "a" — `remainingChats[0]` in insertion order — rather
than "b", the remaining conversation with the maximum updatedAt, and it
issues no history fetch for the new selection: the `switchToChat` call is
made after `currentChatId` has already been set to its argument, so it
returns at its already-current guard and "a" stays unloaded. -/
theorem C1_deleteChat_code_behavior :
    (deleteChat
      { currentChatId := some "c",
        chats := [mkChat "c" "C" [⟨"user", "m", 3⟩] 3 3,
          mkChat "a" "A" [] 1 1, mkChat "b" "B" [] 2 2],
        chatCounter := 1, isLoading := false, userMemory := [] }
      "c" true (.history [⟨"user", some "h", some 4, none⟩]) 9 true).1.currentChatId
        = some "a" ∧
    (deleteChat
      { currentChatId := some "c",
        chats := [mkChat "c" "C" [⟨"user", "m", 3⟩] 3 3,
          mkChat "a" "A" [] 1 1, mkChat "b" "B" [] 2 2],
        chatCounter := 1, isLoading := false, userMemory := [] }
      "c" true (.history [⟨"user", some "h", some 4, none⟩]) 9 true).2 = 0 ∧
    mapGet (deleteChat
      { currentChatId := some "c",
        chats := [mkChat "c" "C" [⟨"user", "m", 3⟩] 3 3,
          mkChat "a" "A" [] 1 1, mkChat "b" "B" [] 2 2],
        chatCounter := 1, isLoading := false, userMemory := [] }
      "c" true (.history [⟨"user", some "h", some 4, none⟩]) 9 true).1.chats "a"
        = some (mkChat "a" "A" [] 1 1) := by
  decide

/-- Counterexample to C3: when the delete fetch for "c1" rejects, the
`Promise.all` in `clearAllChats` rejects, control lands in the `catch`,
and the local state is left exactly as it was — nothing is reset and no
new conversation is created, although the claim requires a reset plus one
new conversation in all cases. -/
theorem C3_counterexample_reject_keeps_state :
    (clearAllChats
      { currentChatId := some "c1",
        chats := [mkChat "c1" "One" [] 1 1, mkChat "c2" "Two" [] 2 2],
        chatCounter := 3, isLoading := false, userMemory := [] }
      (fun id => id != "c1") 9 true).1 =
      { currentChatId := some "c1",
        chats := [mkChat "c1" "One" [] 1 1, mkChat "c2" "Two" [] 2 2],
        chatCounter := 3, isLoading := false, userMemory := [] } ∧
    ({ currentChatId := some "c1",
       chats := [mkChat "c1" "One" [] 1 1, mkChat "c2" "Two" [] 2 2],
       chatCounter := 3, isLoading := false, userMemory := [] } : AppState).chats.length
      = 2 := by
  decide

/-- C3 amended: clear-all issues a delete request for every conversation id
in the store, but awaits them with the fail-fast `Promise.all`: when every
delete fetch resolves (HTTP status is never inspected), local state is
reset and exactly one `createNewChat` is attempted — on create success
exactly one new conversation exists and is current; when any delete fetch
rejects, an error is surfaced and local state is left unchanged. -/
theorem C3_amended_clear_all (s : AppState) (del : String → Bool) (now : Nat)
    (createOk : Bool) :
    (clearAllChats s del now createOk).2 = s.chats.map (fun c => c.id) ∧
    ((s.chats.map (fun c => c.id)).all del = true →
      (clearAllChats s del now createOk).1 =
        createNewChat { s with chats := [], chatCounter := 1 } now createOk) ∧
    ((s.chats.map (fun c => c.id)).all del = false →
      (clearAllChats s del now createOk).1 = s) ∧
    ((s.chats.map (fun c => c.id)).all del = true → createOk = true →
      ∃ newId,
        (clearAllChats s del now createOk).1.chats =
          [mkChat newId "New Conversation" [] now now] ∧
        (clearAllChats s del now createOk).1.currentChatId = some newId) := by
  refine ⟨?_, ?_, ?_, ?_⟩
  · simp only [clearAllChats]
    split <;> rfl
  · intro h
    simp only [clearAllChats]
    rw [if_pos h]
  · intro h
    simp only [clearAllChats]
    rw [if_neg (by simp [h])]
  · intro h hok
    simp only [clearAllChats]
    rw [if_pos h]
    subst hok
    exact ⟨"chat_" ++ toString now ++ "_" ++ toString (1 : Nat), rfl, rfl⟩

/-- Witness for the amended C3 on a concrete two-chat store where every
delete resolves and the create succeeds. -/
theorem C3_amended_clear_all_witness :
    (clearAllChats
      { currentChatId := some "c1",
        chats := [mkChat "c1" "One" [] 1 1, mkChat "c2" "Two" [] 2 2],
        chatCounter := 3, isLoading := false, userMemory := [] }
      (fun _ => true) 9 true).2 =
      ({ currentChatId := some "c1",
         chats := [mkChat "c1" "One" [] 1 1, mkChat "c2" "Two" [] 2 2],
         chatCounter := 3, isLoading := false, userMemory := [] } : AppState).chats.map
        (fun c => c.id) ∧
    ∃ newId,
      (clearAllChats
        { currentChatId := some "c1",
          chats := [mkChat "c1" "One" [] 1 1, mkChat "c2" "Two" [] 2 2],
          chatCounter := 3, isLoading := false, userMemory := [] }
        (fun _ => true) 9 true).1.chats = [mkChat newId "New Conversation" [] 9 9] ∧
      (clearAllChats
        { currentChatId := some "c1",
          chats := [mkChat "c1" "One" [] 1 1, mkChat "c2" "Two" [] 2 2],
          chatCounter := 3, isLoading := false, userMemory := [] }
        (fun _ => true) 9 true).1.currentChatId = some newId :=
  ⟨(C3_amended_clear_all
      { currentChatId := some "c1",
        chats := [mkChat "c1" "One" [] 1 1, mkChat "c2" "Two" [] 2 2],
        chatCounter := 3, isLoading := false, userMemory := [] }
      (fun _ => true) 9 true).1,
   (C3_amended_clear_all
      { currentChatId := some "c1",
        chats := [mkChat "c1" "One" [] 1 1, mkChat "c2" "Two" [] 2 2],
        chatCounter := 3, isLoading := false, userMemory := [] }
      (fun _ => true) 9 true).2.2.2 (by decide) rfl⟩

end Coworker
